import Mathlib

/-!
# Verification of the ambiguous-date normalization core

Shallow embedding of the date-resolution engine of the reporting tool:

* `scripts/dates.py` — `_try_make_date`, `_split_ddmmaa`, `a_iso_y_display`
* `scripts/ui_panels.py` — `dias_habiles_entre` (business-day counting via
  `np.busday_count`)
* `app.py` — `_normalize_for_excel` (column aliasing)

Python `datetime.date` values are modelled by a plain `(year, month, day)`
record; Python date subtraction `(a - b).days` is modelled through the
standard days-from-civil (Rata Die style) conversion, whose divisions are
exact Euclidean divisions, matching Lean's `Int` `/` and `%`.
-/

namespace Dates

/-- A calendar date: the `(year, month, day)` triple carried by a Python
`datetime.date` / `pandas.Timestamp`. Validity is tracked separately by
`validDate`, mirroring Python where `date(...)` raises on invalid input. -/
structure Date where
  year : Int
  month : Nat
  day : Nat
deriving DecidableEq, Repr

/-- Gregorian leap-year test, as used by `datetime.date` internally. -/
def isLeap (y : Int) : Bool :=
  y % 4 == 0 && (y % 100 != 0 || y % 400 == 0)

/-- Number of days of month `m` in year `y` (months numbered 1..12). -/
def daysInMonth (y : Int) (m : Nat) : Nat :=
  if m = 1 then 31
  else if m = 2 then (if isLeap y then 29 else 28)
  else if m = 3 then 31
  else if m = 4 then 30
  else if m = 5 then 31
  else if m = 6 then 30
  else if m = 7 then 31
  else if m = 8 then 31
  else if m = 9 then 30
  else if m = 10 then 31
  else if m = 11 then 30
  else if m = 12 then 31
  else 0

/-- The triples `datetime.date(y, m, d)` accepts without raising:
`MINYEAR = 1 ≤ y ≤ 9999 = MAXYEAR`, `1 ≤ m ≤ 12`, `1 ≤ d ≤` month length. -/
def validDate (y : Int) (m d : Nat) : Prop :=
  1 ≤ y ∧ y ≤ 9999 ∧ 1 ≤ m ∧ m ≤ 12 ∧ 1 ≤ d ∧ d ≤ daysInMonth y m

instance (y : Int) (m d : Nat) : Decidable (validDate y m d) := by
  unfold validDate; infer_instance

/-- `_try_make_date(Y, m, d)` from `scripts/dates.py`: builds the date if the
triple is a valid Gregorian date, otherwise returns `None` (the caught
`ValueError`). -/
def tryMakeDate (y : Int) (m d : Nat) : Option Date :=
  if validDate y m d then some ⟨y, m, d⟩ else none

/-- Days since the epoch 1970-01-01 of the civil date `(y, m, d)` — the
standard days-from-civil algorithm. All divisions are Euclidean with
positive divisors, which coincides with Lean's `Int` division. This models
the day arithmetic that Python's `datetime.date` subtraction performs. -/
def daysFromCivil (y : Int) (m d : Nat) : Int :=
  let y' : Int := if m ≤ 2 then y - 1 else y
  let era : Int := y' / 400
  let yoe : Int := y' - era * 400
  let mp : Int := if m ≤ 2 then (m : Int) + 9 else (m : Int) - 3
  let doy : Int := (153 * mp + 2) / 5 + (d : Int) - 1
  let doe : Int := yoe * 365 + yoe / 4 - yoe / 100 + doy
  era * 146097 + doe - 719468

/-- Days-since-epoch of a `Date` value. -/
def Date.toDays (dt : Date) : Int :=
  daysFromCivil dt.year dt.month dt.day

/-- Python's `(a - b).days` for two dates. -/
def diffDays (a b : Date) : Int :=
  a.toDays - b.toDays

/-! ## Business-day counting (`np.busday_count` with the default Mon–Fri mask) -/

/-- Whether day number `n` (days since 1970-01-01, a Thursday) falls on a
business day Monday..Friday — the default `np.busday_count` weekmask. -/
def isBusDay (n : Int) : Bool :=
  (n + 3) % 7 < 5

/-- Number of business days among the `len` consecutive day numbers
starting at `s`. -/
def countBus (s : Int) : Nat → Nat
  | 0 => 0
  | len + 1 => (if isBusDay s then 1 else 0) + countBus (s + 1) len

/-- `np.busday_count(s, e)` on day numbers: counts business days in the
half-open interval `[s, e)`; negated count of `[e, s)` when `e < s`. -/
def busdayCountDays (s e : Int) : Int :=
  if s ≤ e then (countBus s (e - s).toNat : Int) else -(countBus e (s - e).toNat : Int)

/-- `np.busday_count` applied to two calendar dates. -/
def busdayCount (s e : Date) : Int :=
  busdayCountDays s.toDays e.toDays

/-! ## The raw values `_split_ddmmaa` receives -/

/-- A raw cell value as `_split_ddmmaa` sees it: missing (`pd.isna`), an
already-structured `pd.Timestamp`/`datetime`, or arbitrary text (any other
value is passed through `str(val)`). -/
inductive RawDateValue where
  | null
  | timestamp (t : Date)
  | text (s : String)

/-! ## The `_ddmmaa` pattern: two 1-2 digit groups and a 2-digit group,
separated by dash or slash, with optional surrounding whitespace -/

/-- Python `str.strip()`: drop leading and trailing whitespace. -/
def pyStrip (s : String) : List Char :=
  ((s.data.dropWhile Char.isWhitespace).reverse.dropWhile Char.isWhitespace).reverse

/-- An ASCII decimal digit — the characters the `\d` groups capture in the
data at hand (the sources are CSV exports; non-ASCII Unicode digits do not
occur and are not modelled). -/
def isDigitC (c : Char) : Bool :=
  48 ≤ c.toNat ∧ c.toNat ≤ 57

/-- Value of a digit run, most significant first (`int(...)` on a group). -/
def digitsToNat (cs : List Char) : Nat :=
  cs.foldl (fun acc c => 10 * acc + (c.toNat - 48)) 0

/-- A separator character: dash or slash. -/
def isSep (c : Char) : Bool :=
  c == '-' || c == '/'

/-- Match of `_ddmmaa` on an already-stripped character list: a 1-2 digit
group, a separator, a 1-2 digit group, a separator, a 2-digit group,
anchored at both ends, yielding the three captured groups as numbers.
Since each group is followed by a non-digit (or the end), the groups are
exactly the maximal digit runs. -/
def matchDdmmaa (cs : List Char) : Option (Nat × Nat × Nat) :=
  let g1 := cs.takeWhile isDigitC
  if 1 ≤ g1.length ∧ g1.length ≤ 2 then
    match cs.dropWhile isDigitC with
    | c1 :: r2 =>
      if isSep c1 then
        let g2 := r2.takeWhile isDigitC
        if 1 ≤ g2.length ∧ g2.length ≤ 2 then
          match r2.dropWhile isDigitC with
          | c2 :: r4 =>
            if isSep c2 then
              let g3 := r4.takeWhile isDigitC
              if g3.length = 2 ∧ r4.dropWhile isDigitC = [] then
                some (digitsToNat g1, digitsToNat g2, digitsToNat g3)
              else none
            else none
          | [] => none
        else none
      else none
    | [] => none
  else none

/-! ## `_split_ddmmaa` -/

/-- `_split_ddmmaa(val, dias_ref)` from `scripts/dates.py`. Returns the
`(Y, m, d, yy)` tuple or `none` for the all-`None` tuple. The trailing
free-text fallback `pd.to_datetime(s, dayfirst=True, errors="coerce")` is an
external library call, abstracted as the `genericParse` parameter; `hoy`
is `date.today()`. -/
def split_ddmmaa (genericParse : String → Option Date) (hoy : Date)
    (val : RawDateValue) (dias_ref : Option Int) : Option (Int × Nat × Nat × Int) :=
  match val with
  | .null => none
  | .timestamp t => some (t.year, t.month, t.day, t.year % 100)
  | .text s0 =>
    let s : List Char := pyStrip s0
    match matchDdmmaa s with
    | some (a, b, yy) =>
      let Y : Int := 2000 + (yy : Int)
      if a > 12 ∧ b ≤ 12 then
        match tryMakeDate Y b a with
        | some dt => some (Y, dt.month, dt.day, (yy : Int))
        | none => none
      else if a ≤ 12 ∧ b > 12 then
        match tryMakeDate Y a b with
        | some dt => some (Y, dt.month, dt.day, (yy : Int))
        | none => none
      else
        let dt_ddmm := tryMakeDate Y b a
        let dt_mmdd := tryMakeDate Y a b
        if dt_ddmm = none ∧ dt_mmdd = none then none
        else
          match dias_ref with
          | some ref =>
            let best : Option (Int × Date) :=
              match dt_ddmm with
              | some dd => some (|diffDays hoy dd - ref|, dd)
              | none => none
            let best : Option (Int × Date) :=
              match dt_mmdd with
              | some md =>
                let diff2 := |diffDays hoy md - ref|
                match best with
                | none => some (diff2, md)
                | some (diff1, dd) =>
                  if diff2 < diff1 then some (diff2, md) else some (diff1, dd)
              | none => best
            match best with
            | some (_, dt) => some (Y, dt.month, dt.day, (yy : Int))
            | none => none
          | none =>
            match dt_ddmm with
            | some dd =>
              let dt := if diffDays hoy dd ≥ -1 then dd else (dt_mmdd.getD dd)
              some (Y, dt.month, dt.day, (yy : Int))
            | none =>
              match dt_mmdd with
              | some md => some (Y, md.month, md.day, (yy : Int))
              | none => none
    | none =>
      match genericParse (String.mk s) with
      | some t => some (t.year, t.month, t.day, t.year % 100)
      | none => none

/-! ## `a_iso_y_display` -/

/-- Decimal digits, most significant first; structural recursion on a fuel
argument so that the kernel can evaluate it (`fuel ≥ n` suffices since
`n / 10 < n` for `n ≥ 10`). -/
def natDigitsGo : Nat → Nat → List Char
  | 0, n => [Char.ofNat (48 + n % 10)]
  | fuel + 1, n =>
    if n < 10 then [Char.ofNat (48 + n)]
    else natDigitsGo fuel (n / 10) ++ [Char.ofNat (48 + n % 10)]

/-- Decimal digits of `n`, most significant first (`'0'`..`'9'`). -/
def natDigits (n : Nat) : List Char :=
  natDigitsGo n n

/-- Python `f"{n:0wd}"` for a natural number: zero-pad to width `w`. -/
def padNat (w n : Nat) : List Char :=
  List.replicate (w - (natDigits n).length) '0' ++ natDigits n

/-- Python `f"{n:0wd}"` for an integer: a sign consumes one column. -/
def padInt (w : Nat) (n : Int) : List Char :=
  if n < 0 then '-' :: padNat (w - 1) n.natAbs else padNat w n.toNat

/-- Serialization step of `a_iso_y_display` for one resolved tuple:
`none` gives a pair of empty strings, a tuple gives the pair
(ISO `f"{Y:04d}-{m:02d}-{d:02d}"`, display `f"{d:02d}-{m:02d}-{yy:02d}"`). -/
def render (r : Option (Int × Nat × Nat × Int)) : String × String :=
  match r with
  | none => ("", "")
  | some (Y, m, d, yy) =>
    (String.mk (padInt 4 Y ++ '-' :: padNat 2 m ++ '-' :: padNat 2 d),
     String.mk (padNat 2 d ++ '-' :: padNat 2 m ++ '-' :: padInt 2 yy))

/-- Hint extraction of `a_iso_y_display`:
`dias_ref_series.iloc[i] if dias_ref_series is not None and i < len(...) else None`,
with a missing (`NaN`) entry likewise acting as `None` (`pd.notna` guard in
`_split_ddmmaa`). -/
def hintAt (hints : Option (List (Option Int))) (i : Nat) : Option Int :=
  match hints with
  | none => none
  | some l => (l[i]?).join

/-- The `for i, v in enumerate(series)` loop body of `a_iso_y_display`,
carrying the running index. -/
def normGo (genericParse : String → Option Date) (hoy : Date)
    (hints : Option (List (Option Int))) : Nat → List RawDateValue → List (String × String)
  | _, [] => []
  | i, v :: rest =>
    render (split_ddmmaa genericParse hoy v (hintAt hints i)) ::
      normGo genericParse hoy hints (i + 1) rest

/-- `a_iso_y_display(series, dias_ref_series)` from `scripts/dates.py`:
the pair of the ISO column and the display column. -/
def a_iso_y_display (genericParse : String → Option Date) (hoy : Date)
    (series : List RawDateValue) (hints : Option (List (Option Int))) :
    List String × List String :=
  let rs := normGo genericParse hoy hints 0 series
  (rs.map Prod.fst, rs.map Prod.snd)

/-! ## `dias_habiles_entre` (`scripts/ui_panels.py`) -/

/-- One position of `dias_habiles_entre`: start date `fc` (after
`pd.to_datetime(..., errors="coerce")`, so `none` marks a missing or
unparseable value), optional end date `fa`, and `hoy`
(`pd.Timestamp.today().normalize()`). `end = fa.fillna(hoy)`; positions
with a missing start stay `NaN` (`none`), the rest get `np.busday_count`. -/
def diasHabilesAt (hoy : Date) (fc : Option Date) (fa : Option Date) : Option Int :=
  let e := fa.getD hoy
  match fc with
  | none => none
  | some s => some (busdayCount s e)

/-- The activation entry at position `i`: `none` when the activation series
is absent (`activacion_iso is None`), too short, or `NaT` there. -/
def activEntry (activacion : Option (List (Option Date))) (i : Nat) : Option Date :=
  match activacion with
  | none => none
  | some l => (l[i]?).join

/-- `dias_habiles_entre(creacion_iso, activacion_iso)`: elementwise
`diasHabilesAt` with the activation entry looked up positionally. -/
def dias_habiles_entre (hoy : Date) (creacion : List (Option Date))
    (activacion : Option (List (Option Date))) : List (Option Int) :=
  (List.range creacion.length).map fun i =>
    diasHabilesAt hoy ((creacion[i]?).join) (activEntry activacion i)

end Dates

/-! ## Column aliasing (`app.py`, `_normalize_for_excel` and `_col`) -/

namespace Aliasing

/-- The `aliases` table of `_normalize_for_excel` in `app.py`: canonical
target name paired with its recognized source aliases, in priority order. -/
def excelAliases : List (String × List String) :=
  [("SUSCRIPCION", ["SUSCRIPCION", "Subscription", "subscription"]),
   ("INTERACCION", ["INTERACCION", "Interaction", "interaction"]),
   ("CATEGORIA", ["CATEGORIA", "Order Category", "order category", "order_category"]),
   ("ESTADO", ["ESTADO", "Order Status", "status", "order status"]),
   ("OFERTA", ["OFERTA", "Main Offer", "offer", "main offer", "main_offer"]),
   ("RESPONSABLE",
    ["RESPONSABLE", "Responsible", "PM", "Project Manager", "owner", "project manager"]),
   ("FECHA DE CREACION",
    ["FECHA DE CREACION", "Order Creation Date", "order creation date",
     "order_creation_date", "fecha de creacion", "fecha_creacion"]),
   ("FECHA DE ACTIVACION",
    ["FECHA DE ACTIVACION", "Fecha Activación", "Activation Date",
     "activation date", "activation_date", "fecha de activacion", "fecha_activacion"])]

/-- ASCII lowercasing of one character, as Python `str.lower()` acts on the
(ASCII) alias and column names involved here. -/
def lowerChar (c : Char) : Char :=
  if 65 ≤ c.toNat ∧ c.toNat ≤ 90 then Char.ofNat (c.toNat + 32) else c

/-- Lowercased character list of a string (`str(c).lower()`). -/
def lowerStr (s : String) : List Char :=
  s.data.map lowerChar

/-- Lookup in `lower_map = {str(c).lower(): c for c in df.columns}`: the
actual column whose lowercasing equals `key`. A Python dict comprehension
keeps the last writer, hence `getLast?`. -/
def lowerLookup (cols : List String) (key : List Char) : Option String :=
  (cols.filter (fun c => lowerStr c == key)).getLast?

/-- The inner `for n in names: ... break` loop of `_normalize_for_excel`:
the column bound by the first alias present in `lower_map`. -/
def firstAliasSrc (cols : List String) : List String → Option String
  | [] => none
  | n :: rest =>
    match lowerLookup cols (lowerStr n) with
    | some src => some src
    | none => firstAliasSrc cols rest

/-- The `colmap` built by `_normalize_for_excel` (as its `(src, target)`
pairs in insertion order): for each canonical target, the first alias with
a case-insensitive match against an actual column binds that column. The
input column list is not modified — `df.rename(columns=colmap).copy()`
returns a fresh frame. -/
def colmapPairs (aliases : List (String × List String)) (cols : List String) :
    List (String × String) :=
  aliases.filterMap (fun p => (firstAliasSrc cols p.2).map (fun src => (src, p.1)))

/-- Strip leading and trailing whitespace from a character list. -/
def trimChars (cs : List Char) : List Char :=
  ((cs.dropWhile Char.isWhitespace).reverse.dropWhile Char.isWhitespace).reverse

/-- Case-insensitive AND whitespace-trimmed matching, as the specification
describes the aliasing ("Case-insensitive, whitespace-trimmed matching").
Stated only to compare with `colmapPairs`, which is the code's behavior. -/
def lowerTrimLookup (cols : List String) (key : List Char) : Option String :=
  (cols.filter (fun c => trimChars (lowerStr c) == trimChars key)).getLast?

/-- First-alias binding under the specification's trimmed matching. -/
def firstAliasSrcTrimmed (cols : List String) : List String → Option String
  | [] => none
  | n :: rest =>
    match lowerTrimLookup cols (lowerStr n) with
    | some src => some src
    | none => firstAliasSrcTrimmed cols rest

/-- The rename plan under the specification's trimmed matching. -/
def colmapPairsTrimmed (aliases : List (String × List String)) (cols : List String) :
    List (String × String) :=
  aliases.filterMap (fun p => (firstAliasSrcTrimmed cols p.2).map (fun src => (src, p.1)))

end Aliasing

namespace Dates

/-! ## Supporting lemmas -/

lemma digitsToNat_le_99 {cs : List Char} (hlen : cs.length ≤ 2)
    (hdig : ∀ c ∈ cs, isDigitC c) : digitsToNat cs ≤ 99 := by
  match cs with
  | [] => simp [digitsToNat]
  | [c] =>
    have h := hdig c (by simp)
    simp [isDigitC] at h
    simp [digitsToNat]
    omega
  | [c, c'] =>
    have h := hdig c (by simp)
    have h' := hdig c' (by simp)
    simp [isDigitC] at h h'
    simp [digitsToNat]
    omega
  | _ :: _ :: _ :: _ => simp at hlen

lemma matchDdmmaa_bounds {cs : List Char} {a b yy : Nat}
    (hm : matchDdmmaa cs = some (a, b, yy)) : a ≤ 99 ∧ b ≤ 99 ∧ yy ≤ 99 := by
  simp only [matchDdmmaa] at hm
  repeat' split at hm
  any_goals exact Option.noConfusion hm
  have h' := Option.some.inj hm
  obtain ⟨ha, h2⟩ := Prod.ext_iff.mp h'
  obtain ⟨hb, hyy⟩ := Prod.ext_iff.mp h2
  subst ha hb hyy
  exact ⟨digitsToNat_le_99 (by omega) (fun c hc => List.mem_takeWhile_imp hc),
    digitsToNat_le_99 (by omega) (fun c hc => List.mem_takeWhile_imp hc),
    digitsToNat_le_99 (by omega) (fun c hc => List.mem_takeWhile_imp hc)⟩

lemma tryMakeDate_eq_some {y : Int} {m d : Nat} {dt : Date}
    (h : tryMakeDate y m d = some dt) : dt = ⟨y, m, d⟩ ∧ validDate y m d := by
  unfold tryMakeDate at h
  split at h
  · exact ⟨(Option.some.inj h).symm, by assumption⟩
  · exact absurd h (by simp)

lemma tryMakeDate_of_valid {y : Int} {m d : Nat} (h : validDate y m d) :
    tryMakeDate y m d = some ⟨y, m, d⟩ := by
  simp [tryMakeDate, h]

lemma tryMakeDate_of_not_valid {y : Int} {m d : Nat} (h : ¬ validDate y m d) :
    tryMakeDate y m d = none := by
  simp [tryMakeDate, h]

/-- Two distinct day-month swaps of the same pair within 1..12 land on
distinct day numbers (for the years `2000 + yy` reachable from a 2-digit
year). -/
lemma daysFromCivil_swap_ne {Y : Int} (hY : 2000 ≤ Y) (hY' : Y ≤ 2099)
    {a b : Nat} (ha : 1 ≤ a) (ha' : a ≤ 12) (hb : 1 ≤ b) (hb' : b ≤ 12)
    (hne : a ≠ b) : daysFromCivil Y b a ≠ daysFromCivil Y a b := by
  simp only [daysFromCivil]
  split_ifs <;> omega

lemma countBus_seven (s : Int) : countBus s 7 = 5 := by
  show (if isBusDay s then 1 else 0) +
      ((if isBusDay (s + 1) then 1 else 0) +
        ((if isBusDay (s + 1 + 1) then 1 else 0) +
          ((if isBusDay (s + 1 + 1 + 1) then 1 else 0) +
            ((if isBusDay (s + 1 + 1 + 1 + 1) then 1 else 0) +
              ((if isBusDay (s + 1 + 1 + 1 + 1 + 1) then 1 else 0) +
                ((if isBusDay (s + 1 + 1 + 1 + 1 + 1 + 1) then 1 else 0) + 0)))))) = 5
  simp only [isBusDay, decide_eq_true_eq]
  split_ifs <;> omega

lemma busdayCountDays_self (n : Int) : busdayCountDays n n = 0 := by
  simp [busdayCountDays, countBus]

lemma busdayCountDays_seven (n : Int) : busdayCountDays n (n + 7) = 5 := by
  have h7 : (n + 7 - n).toNat = 7 := by omega
  rw [busdayCountDays, if_pos (by omega), h7, countBus_seven]
  rfl

lemma busdayCountDays_one (n : Int) :
    busdayCountDays n (n + 1) = if isBusDay n then 1 else 0 := by
  have h1 : (n + 1 - n).toNat = 1 := by omega
  have e : countBus n 1 = if isBusDay n then 1 else 0 := by
    show (if isBusDay n then 1 else 0) + countBus (n + 1) 0 = _
    cases h : isBusDay n <;> simp [h, countBus]
  rw [busdayCountDays, if_pos (by omega), h1, e]
  cases h : isBusDay n <;> simp [h]

lemma diffDays_swap_ne {Y : Int} (hoy : Date) (hY : 2000 ≤ Y) (hY' : Y ≤ 2099)
    {a b : Nat} (ha : 1 ≤ a) (ha' : a ≤ 12) (hb : 1 ≤ b) (hb' : b ≤ 12)
    (hne : a ≠ b) :
    diffDays hoy ⟨Y, b, a⟩ ≠ diffDays hoy ⟨Y, a, b⟩ := by
  have h := daysFromCivil_swap_ne hY hY' ha ha' hb hb' hne
  simp only [diffDays, Date.toDays] at *
  omega

/-- C1. For an ambiguous `"a-b-yy"` string (both components ≤ 12, both
candidate dates valid) with a hint supplied, `_split_ddmmaa` returns the
candidate whose elapsed-days-from-today count is closest (in absolute
difference) to the hint, preferring the day-first candidate `(day=a,
month=b)` on ties; in particular a hint equal to the month-first
candidate's elapsed-days count selects the month-first candidate. -/
theorem claim_hint_selection (gp : String → Option Date) (hoy : Date) (s0 : String)
    (a b yy : Nat) (ref : Int)
    (hm : matchDdmmaa (pyStrip s0) = some (a, b, yy))
    (ha : a ≤ 12) (hb : b ≤ 12)
    (hva : validDate (2000 + (yy : Int)) b a)
    (hvb : validDate (2000 + (yy : Int)) a b) :
    (|diffDays hoy ⟨2000 + (yy : Int), b, a⟩ - ref| ≤
        |diffDays hoy ⟨2000 + (yy : Int), a, b⟩ - ref| →
      split_ddmmaa gp hoy (.text s0) (some ref) =
        some (2000 + (yy : Int), b, a, (yy : Int))) ∧
    (|diffDays hoy ⟨2000 + (yy : Int), a, b⟩ - ref| <
        |diffDays hoy ⟨2000 + (yy : Int), b, a⟩ - ref| →
      split_ddmmaa gp hoy (.text s0) (some ref) =
        some (2000 + (yy : Int), a, b, (yy : Int))) ∧
    (ref = diffDays hoy ⟨2000 + (yy : Int), a, b⟩ →
      split_ddmmaa gp hoy (.text s0) (some ref) =
        some (2000 + (yy : Int), a, b, (yy : Int))) := by
  have hred : split_ddmmaa gp hoy (.text s0) (some ref) =
      if |diffDays hoy ⟨2000 + (yy : Int), a, b⟩ - ref| <
          |diffDays hoy ⟨2000 + (yy : Int), b, a⟩ - ref|
      then some (2000 + (yy : Int), a, b, (yy : Int))
      else some (2000 + (yy : Int), b, a, (yy : Int)) := by
    by_cases hcmp : |diffDays hoy ⟨2000 + (yy : Int), a, b⟩ - ref| <
        |diffDays hoy ⟨2000 + (yy : Int), b, a⟩ - ref| <;>
    · simp only [split_ddmmaa, hm]
      rw [if_neg (by omega), if_neg (by omega)]
      simp only [tryMakeDate_of_valid hva, tryMakeDate_of_valid hvb]
      simp [hcmp]
  refine ⟨fun h => ?_, fun h => ?_, fun h => ?_⟩
  · rw [hred, if_neg (by omega)]
  · rw [hred, if_pos h]
  · by_cases hab : a = b
    · subst hab
      rw [hred]
      split_ifs <;> rfl
    · have hyy99 := (matchDdmmaa_bounds hm).2.2
      have hne := diffDays_swap_ne (Y := 2000 + (yy : Int)) hoy (by omega)
        (by omega) hva.2.2.2.2.1 (by omega) hva.2.2.1 (by omega) hab
      rw [hred, if_pos ?_]
      rw [h, sub_self, abs_zero]
      exact abs_pos.mpr (sub_ne_zero.mpr (h ▸ hne))

/-- C2. For an ambiguous `"a-b-yy"` string with no hint, `_split_ddmmaa`
returns the day-first candidate whenever it is valid and not more than one
day in the future; otherwise it falls back to the month-first candidate
when that one is valid, and to the day-first candidate when it is not. -/
theorem claim_nohint_fallback (gp : String → Option Date) (hoy : Date) (s0 : String)
    (a b yy : Nat)
    (hm : matchDdmmaa (pyStrip s0) = some (a, b, yy))
    (ha : a ≤ 12) (hb : b ≤ 12) :
    (validDate (2000 + (yy : Int)) b a →
      diffDays hoy ⟨2000 + (yy : Int), b, a⟩ ≥ -1 →
      split_ddmmaa gp hoy (.text s0) none =
        some (2000 + (yy : Int), b, a, (yy : Int))) ∧
    (validDate (2000 + (yy : Int)) b a →
      diffDays hoy ⟨2000 + (yy : Int), b, a⟩ < -1 →
      validDate (2000 + (yy : Int)) a b →
      split_ddmmaa gp hoy (.text s0) none =
        some (2000 + (yy : Int), a, b, (yy : Int))) ∧
    (validDate (2000 + (yy : Int)) b a →
      diffDays hoy ⟨2000 + (yy : Int), b, a⟩ < -1 →
      ¬ validDate (2000 + (yy : Int)) a b →
      split_ddmmaa gp hoy (.text s0) none =
        some (2000 + (yy : Int), b, a, (yy : Int))) ∧
    (¬ validDate (2000 + (yy : Int)) b a →
      validDate (2000 + (yy : Int)) a b →
      split_ddmmaa gp hoy (.text s0) none =
        some (2000 + (yy : Int), a, b, (yy : Int))) := by
  refine ⟨fun hva hge => ?_, fun hva hlt hvb => ?_, fun hva hlt hvb => ?_,
    fun hva hvb => ?_⟩ <;>
    simp only [split_ddmmaa, hm] <;>
    rw [if_neg (by omega), if_neg (by omega)]
  · simp only [tryMakeDate_of_valid hva]
    simp [hge]
  · simp only [tryMakeDate_of_valid hva, tryMakeDate_of_valid hvb]
    simp [not_le.mpr hlt]
  · simp only [tryMakeDate_of_valid hva, tryMakeDate_of_not_valid hvb]
    simp [not_le.mpr hlt]
  · simp only [tryMakeDate_of_not_valid hva, tryMakeDate_of_valid hvb]
    simp

/-- C3. For an `"a-b-yy"` string in which exactly one leading component
exceeds 12, `_split_ddmmaa` resolves it unambiguously (day = the component
over 12, month = the other; `Unresolvable` when that reading is not a
valid calendar date), and the result is the same for any two hint values:
the hint has no influence. -/
theorem claim_unambiguous_hint_independent (gp : String → Option Date) (hoy : Date)
    (s0 : String) (a b yy : Nat)
    (hm : matchDdmmaa (pyStrip s0) = some (a, b, yy))
    (hone : (12 < a ∧ b ≤ 12) ∨ (a ≤ 12 ∧ 12 < b)) (h1 h2 : Option Int) :
    split_ddmmaa gp hoy (.text s0) h1 = split_ddmmaa gp hoy (.text s0) h2 ∧
    split_ddmmaa gp hoy (.text s0) h1 =
      (if 12 < a then
        (if validDate (2000 + (yy : Int)) b a
         then some (2000 + (yy : Int), b, a, (yy : Int)) else none)
       else
        (if validDate (2000 + (yy : Int)) a b
         then some (2000 + (yy : Int), a, b, (yy : Int)) else none)) := by
  rcases hone with ⟨hag, hbl⟩ | ⟨hal, hbg⟩
  · have hc : a > 12 ∧ b ≤ 12 := ⟨hag, hbl⟩
    refine ⟨?_, ?_⟩
    · simp only [split_ddmmaa, hm]
      rw [if_pos hc, if_pos hc]
    · simp only [split_ddmmaa, hm]
      rw [if_pos hc, if_pos hag]
      by_cases hv : validDate (2000 + (yy : Int)) b a
      · simp [tryMakeDate_of_valid hv, hv]
      · simp [tryMakeDate_of_not_valid hv, hv]
  · have hc : ¬ (a > 12 ∧ b ≤ 12) := by omega
    have hc2 : a ≤ 12 ∧ b > 12 := ⟨hal, hbg⟩
    refine ⟨?_, ?_⟩
    · simp only [split_ddmmaa, hm]
      rw [if_neg hc, if_pos hc2, if_neg hc, if_pos hc2]
    · simp only [split_ddmmaa, hm]
      rw [if_neg hc, if_pos hc2, if_neg (by omega : ¬ 12 < a)]
      by_cases hv : validDate (2000 + (yy : Int)) a b
      · simp [tryMakeDate_of_valid hv, hv]
      · simp [tryMakeDate_of_not_valid hv, hv]

lemma normGo_length (gp : String → Option Date) (hoy : Date)
    (hints : Option (List (Option Int))) :
    ∀ (series : List RawDateValue) (i : Nat),
      (normGo gp hoy hints i series).length = series.length := by
  intro series
  induction series with
  | nil => intro i; rfl
  | cons v rest ih => intro i; simp [normGo, ih]

lemma normGo_getElem? (gp : String → Option Date) (hoy : Date)
    (hints : Option (List (Option Int))) :
    ∀ (series : List RawDateValue) (i k : Nat),
      (normGo gp hoy hints i series)[k]? =
        (series[k]?).map
          (fun v => render (split_ddmmaa gp hoy v (hintAt hints (i + k)))) := by
  intro series
  induction series with
  | nil => intro i k; simp [normGo]
  | cons v rest ih =>
    intro i k
    cases k with
    | zero => simp [normGo]
    | succ k =>
      have e : i + 1 + k = i + (k + 1) := by omega
      simp [normGo, ih (i + 1) k, e]

lemma a_iso_y_display_length (gp : String → Option Date) (hoy : Date)
    (series : List RawDateValue) (hints : Option (List (Option Int))) :
    (a_iso_y_display gp hoy series hints).1.length = series.length ∧
    (a_iso_y_display gp hoy series hints).2.length = series.length := by
  constructor <;> simp [a_iso_y_display, normGo_length]

lemma a_iso_y_display_at (gp : String → Option Date) (hoy : Date)
    (series : List RawDateValue) (hints : Option (List (Option Int)))
    {i : Nat} {v : RawDateValue} (hv : series[i]? = some v) :
    (a_iso_y_display gp hoy series hints).1[i]? =
      some (render (split_ddmmaa gp hoy v (hintAt hints i))).1 ∧
    (a_iso_y_display gp hoy series hints).2[i]? =
      some (render (split_ddmmaa gp hoy v (hintAt hints i))).2 := by
  constructor <;> simp [a_iso_y_display, normGo_getElem?, hv]

/-- C4. `a_iso_y_display` returns two sequences exactly as long as the
input, positionally aligned with it (the entry at position `i` is the
rendering of the resolution of the input at position `i`), and
unresolvable positions hold the empty string in both outputs. (The
embedding is a pure function of its arguments, so the input series is
not mutated.) -/
theorem claim_normalizer_alignment (gp : String → Option Date) (hoy : Date)
    (series : List RawDateValue) (hints : Option (List (Option Int))) :
    (a_iso_y_display gp hoy series hints).1.length = series.length ∧
    (a_iso_y_display gp hoy series hints).2.length = series.length ∧
    (∀ (i : Nat) (v : RawDateValue), series[i]? = some v →
      (a_iso_y_display gp hoy series hints).1[i]? =
        some (render (split_ddmmaa gp hoy v (hintAt hints i))).1 ∧
      (a_iso_y_display gp hoy series hints).2[i]? =
        some (render (split_ddmmaa gp hoy v (hintAt hints i))).2 ∧
      (split_ddmmaa gp hoy v (hintAt hints i) = none →
        (a_iso_y_display gp hoy series hints).1[i]? = some "" ∧
        (a_iso_y_display gp hoy series hints).2[i]? = some "")) := by
  refine ⟨(a_iso_y_display_length gp hoy series hints).1,
    (a_iso_y_display_length gp hoy series hints).2, ?_⟩
  intro i v hv
  obtain ⟨h1, h2⟩ := a_iso_y_display_at gp hoy series hints hv
  refine ⟨h1, h2, fun hnone => ⟨?_, ?_⟩⟩
  · rw [h1, hnone]; rfl
  · rw [h2, hnone]; rfl

/-- C5. Malformed inputs resolve to `Unresolvable` (`none`) without any
exception — `"not-a-date"` fails the pattern and the generic fallback,
`"32-13-99"` matches the pattern but admits no valid reading for any hint
and any today — and the normalizer emits the empty string in both outputs
at such a position while the rest of the batch keeps its full length. -/
theorem claim_malformed_unresolvable :
    (∀ (gp : String → Option Date) (hoy : Date) (hint : Option Int),
      gp "not-a-date" = none →
      split_ddmmaa gp hoy (.text "not-a-date") hint = none) ∧
    (∀ (gp : String → Option Date) (hoy : Date) (hint : Option Int),
      split_ddmmaa gp hoy (.text "32-13-99") hint = none) ∧
    (∀ (gp : String → Option Date) (hoy : Date) (series : List RawDateValue)
        (hints : Option (List (Option Int))) (i : Nat) (v : RawDateValue),
      series[i]? = some v →
      split_ddmmaa gp hoy v (hintAt hints i) = none →
      (a_iso_y_display gp hoy series hints).1.length = series.length ∧
      (a_iso_y_display gp hoy series hints).2.length = series.length ∧
      (a_iso_y_display gp hoy series hints).1[i]? = some "" ∧
      (a_iso_y_display gp hoy series hints).2[i]? = some "") := by
  refine ⟨?_, ?_, ?_⟩
  · intro gp hoy hint hgp
    have hmm : matchDdmmaa (pyStrip "not-a-date") = none := by decide
    have hs : String.mk (pyStrip "not-a-date") = "not-a-date" := by decide
    simp only [split_ddmmaa, hmm, hs, hgp]
  · intro gp hoy hint
    rfl
  · intro gp hoy series hints i v hv hnone
    obtain ⟨g1, g2⟩ := a_iso_y_display_at gp hoy series hints hv
    rw [hnone] at g1 g2
    exact ⟨(a_iso_y_display_length gp hoy series hints).1,
      (a_iso_y_display_length gp hoy series hints).2, g1, g2⟩

/-- C6. An already-structured timestamp resolves, for any hint, to exactly
its own year, month and day (with the 2-digit year `year % 100`) — a
round-trip identity. -/
theorem claim_timestamp_roundtrip (gp : String → Option Date) (hoy : Date)
    (t : Date) (hint : Option Int) :
    split_ddmmaa gp hoy (.timestamp t) hint =
      some (t.year, t.month, t.day, t.year % 100) := rfl

/-- C7. The business-day count uses the Monday–Friday weekmask with no
holidays, inclusive-exclusive at every position: equal start and end give
0, an end exactly 7 calendar days after the start gives 5, and a
one-day span counts exactly its (business) start day. -/
theorem claim_business_day_conventions :
    (∀ d : Date, busdayCount d d = 0) ∧
    (∀ s e : Date, e.toDays = s.toDays + 7 → busdayCount s e = 5) ∧
    (∀ s e : Date, e.toDays = s.toDays + 1 →
      busdayCount s e = if isBusDay s.toDays then 1 else 0) := by
  refine ⟨fun d => busdayCountDays_self _, fun s e h => ?_, fun s e h => ?_⟩
  · rw [busdayCount, h, busdayCountDays_seven]
  · rw [busdayCount, h, busdayCountDays_one]

/-- Witness for C7 at concrete dates: 2024-06-03 is a Monday, 2024-06-10
the following Monday, 2024-06-07 a Friday. -/
theorem claim_business_day_conventions_witness :
    busdayCount ⟨2024, 6, 3⟩ ⟨2024, 6, 3⟩ = 0 ∧
    busdayCount ⟨2024, 6, 3⟩ ⟨2024, 6, 10⟩ = 5 ∧
    busdayCount ⟨2024, 6, 7⟩ ⟨2024, 6, 8⟩ = 1 :=
  ⟨claim_business_day_conventions.1 ⟨2024, 6, 3⟩,
   claim_business_day_conventions.2.1 ⟨2024, 6, 3⟩ ⟨2024, 6, 10⟩ (by decide),
   (claim_business_day_conventions.2.2 ⟨2024, 6, 7⟩ ⟨2024, 6, 8⟩ (by decide)).trans
     (by decide)⟩

/-- C8. Per position of `dias_habiles_entre`: a missing or unresolved
start date yields `none` (null); a present start date with a missing end
date yields the business-day count from the start date to today. -/
theorem claim_business_days_missing (hoy : Date) (creacion : List (Option Date))
    (activacion : Option (List (Option Date))) (i : Nat) (hi : i < creacion.length) :
    ((creacion[i]?).join = none →
      (dias_habiles_entre hoy creacion activacion)[i]? = some none) ∧
    (∀ sd : Date, (creacion[i]?).join = some sd → activEntry activacion i = none →
      (dias_habiles_entre hoy creacion activacion)[i]? =
        some (some (busdayCount sd hoy))) := by
  have hout : (dias_habiles_entre hoy creacion activacion)[i]? =
      some (diasHabilesAt hoy ((creacion[i]?).join) (activEntry activacion i)) := by
    simp [dias_habiles_entre, List.getElem?_range hi]
  refine ⟨fun hnone => ?_, fun sd hsd hact => ?_⟩
  · rw [hout, hnone]; rfl
  · rw [hout, hsd, hact]; rfl

/-- Witness for C8: position 0 has no start date, position 1 has a start
date and no end date. -/
theorem claim_business_days_missing_witness :
    (dias_habiles_entre ⟨2024, 6, 10⟩ [none, some ⟨2024, 6, 3⟩] none)[0]? =
      some none ∧
    (dias_habiles_entre ⟨2024, 6, 10⟩ [none, some ⟨2024, 6, 3⟩] none)[1]? =
      some (some (busdayCount ⟨2024, 6, 3⟩ ⟨2024, 6, 10⟩)) :=
  ⟨(claim_business_days_missing ⟨2024, 6, 10⟩ [none, some ⟨2024, 6, 3⟩] none 0
      (by decide)).1 (by decide),
   (claim_business_days_missing ⟨2024, 6, 10⟩ [none, some ⟨2024, 6, 3⟩] none 1
      (by decide)).2 ⟨2024, 6, 3⟩ (by decide) (by decide)⟩

/-- Witness for C1: for `"03-04-25"` a hint equal to the month-first
candidate's (2025-03-04) elapsed-days count selects the month-first
candidate, although day-first is the default. -/
theorem claim_hint_selection_witness :
    split_ddmmaa (fun _ => none) ⟨2024, 6, 1⟩ (.text "03-04-25")
        (some (diffDays ⟨2024, 6, 1⟩ ⟨2025, 3, 4⟩)) = some (2025, 3, 4, 25) :=
  ((claim_hint_selection (fun _ => none) ⟨2024, 6, 1⟩ "03-04-25" 3 4 25
      (diffDays ⟨2024, 6, 1⟩ ⟨2025, 3, 4⟩) (by decide) (by decide) (by decide)
      (by decide) (by decide)).2.2 (by decide)).trans (by decide)

/-- Witness for C2: with no hint and a past day-first candidate,
`"03-04-25"` resolves day-first to 2025-04-03. -/
theorem claim_nohint_fallback_witness :
    split_ddmmaa (fun _ => none) ⟨2025, 6, 1⟩ (.text "03-04-25") none =
      some (2025, 4, 3, 25) :=
  ((claim_nohint_fallback (fun _ => none) ⟨2025, 6, 1⟩ "03-04-25" 3 4 25 (by decide)
      (by decide) (by decide)).1 (by decide) (by decide)).trans (by decide)

/-- Witness for C3: `"15-04-25"` is unambiguous (15 > 12), resolves to
2025-04-15, and a hint value does not change the result. -/
theorem claim_unambiguous_hint_independent_witness :
    split_ddmmaa (fun _ => none) ⟨2024, 6, 1⟩ (.text "15-04-25") none =
      split_ddmmaa (fun _ => none) ⟨2024, 6, 1⟩ (.text "15-04-25") (some 7) ∧
    split_ddmmaa (fun _ => none) ⟨2024, 6, 1⟩ (.text "15-04-25") none =
      some (2025, 4, 15, 25) := by
  obtain ⟨h1, h2⟩ := claim_unambiguous_hint_independent (fun _ => none) ⟨2024, 6, 1⟩
    "15-04-25" 15 4 25 (by decide) (Or.inl ⟨by decide, by decide⟩) none (some 7)
  exact ⟨h1, h2.trans (by decide)⟩

/-- Witness for C4 on a two-element batch whose second entry is missing. -/
theorem claim_normalizer_alignment_witness :
    (a_iso_y_display (fun _ => none) ⟨2024, 6, 1⟩ [.text "15-04-25", .null] none).1.length
        = 2 ∧
    (a_iso_y_display (fun _ => none) ⟨2024, 6, 1⟩ [.text "15-04-25", .null] none).2.length
        = 2 ∧
    (a_iso_y_display (fun _ => none) ⟨2024, 6, 1⟩ [.text "15-04-25", .null] none).1[1]? =
      some "" ∧
    (a_iso_y_display (fun _ => none) ⟨2024, 6, 1⟩ [.text "15-04-25", .null] none).2[1]? =
      some "" := by
  obtain ⟨h1, h2, h3⟩ := claim_normalizer_alignment (fun _ => none) ⟨2024, 6, 1⟩
    [.text "15-04-25", .null] none
  obtain ⟨g1, g2, g3⟩ := h3 1 .null rfl
  obtain ⟨e1, e2⟩ := g3 rfl
  exact ⟨h1, h2, e1, e2⟩

/-- Witness for C5 on the spec's malformed examples. -/
theorem claim_malformed_unresolvable_witness :
    split_ddmmaa (fun _ => none) ⟨2024, 6, 1⟩ (.text "not-a-date") none = none ∧
    split_ddmmaa (fun _ => none) ⟨2024, 6, 1⟩ (.text "32-13-99") none = none ∧
    (a_iso_y_display (fun _ => none) ⟨2024, 6, 1⟩ [.text "not-a-date"] none).1[0]? =
      some "" ∧
    (a_iso_y_display (fun _ => none) ⟨2024, 6, 1⟩ [.text "not-a-date"] none).2[0]? =
      some "" := by
  obtain ⟨-, -, e1, e2⟩ := claim_malformed_unresolvable.2.2 (fun _ => none)
    ⟨2024, 6, 1⟩ [.text "not-a-date"] none 0 (.text "not-a-date") rfl rfl
  exact ⟨claim_malformed_unresolvable.1 (fun _ => none) ⟨2024, 6, 1⟩ none rfl,
    claim_malformed_unresolvable.2.1 (fun _ => none) ⟨2024, 6, 1⟩ none, e1, e2⟩

/-- Every successful text resolution yields a valid calendar date and a
2-digit year equal to the full year modulo 100, provided the generic
fallback parser only produces valid dates (as `pd.to_datetime` does). -/
lemma split_text_some {gp : String → Option Date} {hoy : Date} {s0 : String}
    {dias : Option Int} {Y : Int} {m d : Nat} {yy : Int}
    (hgp : ∀ s t, gp s = some t → validDate t.year t.month t.day)
    (h : split_ddmmaa gp hoy (.text s0) dias = some (Y, m, d, yy)) :
    validDate Y m d ∧ yy = Y % 100 := by
  simp only [split_ddmmaa] at h
  cases hm : matchDdmmaa (pyStrip s0) with
  | none =>
    simp only [hm] at h
    cases hg : gp (String.mk (pyStrip s0)) with
    | none => simp only [hg] at h; exact Option.noConfusion h
    | some t =>
      simp only [hg, Option.some.injEq, Prod.mk.injEq] at h
      obtain ⟨rfl, rfl, rfl, rfl⟩ := h
      exact ⟨hgp _ t hg, rfl⟩
  | some triple =>
    obtain ⟨a, b, yy2⟩ := triple
    have h99 := (matchDdmmaa_bounds hm).2.2
    simp only [hm] at h
    by_cases hc1 : a > 12 ∧ b ≤ 12
    · rw [if_pos hc1] at h
      cases ht : tryMakeDate (2000 + (yy2 : Int)) b a with
      | none => simp only [ht] at h; exact Option.noConfusion h
      | some dt =>
        simp only [ht, Option.some.injEq, Prod.mk.injEq] at h
        obtain ⟨rfl, rfl, rfl, rfl⟩ := h
        obtain ⟨rfl, hv⟩ := tryMakeDate_eq_some ht
        exact ⟨by simpa using hv, by omega⟩
    · rw [if_neg hc1] at h
      by_cases hc2 : a ≤ 12 ∧ b > 12
      · rw [if_pos hc2] at h
        cases ht : tryMakeDate (2000 + (yy2 : Int)) a b with
        | none => simp only [ht] at h; exact Option.noConfusion h
        | some dt =>
          simp only [ht, Option.some.injEq, Prod.mk.injEq] at h
          obtain ⟨rfl, rfl, rfl, rfl⟩ := h
          obtain ⟨rfl, hv⟩ := tryMakeDate_eq_some ht
          exact ⟨by simpa using hv, by omega⟩
      · rw [if_neg hc2] at h
        by_cases hgd : tryMakeDate (2000 + (yy2 : Int)) b a = none ∧
            tryMakeDate (2000 + (yy2 : Int)) a b = none
        · rw [if_pos hgd] at h; exact Option.noConfusion h
        · rw [if_neg hgd] at h
          cases dias with
          | none =>
            cases hdd : tryMakeDate (2000 + (yy2 : Int)) b a with
            | some dd =>
              simp only [hdd] at h
              obtain ⟨rfl, hvd⟩ := tryMakeDate_eq_some hdd
              by_cases hge :
                  diffDays hoy (⟨2000 + (yy2 : Int), b, a⟩ : Date) ≥ -1
              · rw [if_pos hge] at h
                simp only [Option.some.injEq, Prod.mk.injEq] at h
                obtain ⟨rfl, rfl, rfl, rfl⟩ := h
                exact ⟨by simpa using hvd, by omega⟩
              · rw [if_neg hge] at h
                cases hmd : tryMakeDate (2000 + (yy2 : Int)) a b with
                | some md =>
                  obtain ⟨rfl, hvm⟩ := tryMakeDate_eq_some hmd
                  simp only [hmd, Option.getD_some, Option.some.injEq,
                    Prod.mk.injEq] at h
                  obtain ⟨rfl, rfl, rfl, rfl⟩ := h
                  exact ⟨by simpa using hvm, by omega⟩
                | none =>
                  simp only [hmd, Option.getD_none, Option.some.injEq,
                    Prod.mk.injEq] at h
                  obtain ⟨rfl, rfl, rfl, rfl⟩ := h
                  exact ⟨by simpa using hvd, by omega⟩
            | none =>
              simp only [hdd] at h
              cases hmd : tryMakeDate (2000 + (yy2 : Int)) a b with
              | some md =>
                simp only [hmd, Option.some.injEq, Prod.mk.injEq] at h
                obtain ⟨rfl, rfl, rfl, rfl⟩ := h
                obtain ⟨rfl, hvm⟩ := tryMakeDate_eq_some hmd
                exact ⟨by simpa using hvm, by omega⟩
              | none => exact absurd ⟨hdd, hmd⟩ hgd
          | some ref =>
            cases hdd : tryMakeDate (2000 + (yy2 : Int)) b a with
            | some dd =>
              obtain ⟨rfl, hvd⟩ := tryMakeDate_eq_some hdd
              cases hmd : tryMakeDate (2000 + (yy2 : Int)) a b with
              | some md =>
                obtain ⟨rfl, hvm⟩ := tryMakeDate_eq_some hmd
                simp only [hdd, hmd] at h
                by_cases hcmp :
                    |diffDays hoy (⟨2000 + (yy2 : Int), a, b⟩ : Date) - ref| <
                      |diffDays hoy (⟨2000 + (yy2 : Int), b, a⟩ : Date) - ref|
                · rw [if_pos hcmp] at h
                  simp only [Option.some.injEq, Prod.mk.injEq] at h
                  obtain ⟨rfl, rfl, rfl, rfl⟩ := h
                  exact ⟨by simpa using hvm, by omega⟩
                · rw [if_neg hcmp] at h
                  simp only [Option.some.injEq, Prod.mk.injEq] at h
                  obtain ⟨rfl, rfl, rfl, rfl⟩ := h
                  exact ⟨by simpa using hvd, by omega⟩
              | none =>
                simp only [hdd, hmd, Option.some.injEq, Prod.mk.injEq] at h
                obtain ⟨rfl, rfl, rfl, rfl⟩ := h
                exact ⟨by simpa using hvd, by omega⟩
            | none =>
              cases hmd : tryMakeDate (2000 + (yy2 : Int)) a b with
              | some md =>
                simp only [hdd, hmd, Option.some.injEq, Prod.mk.injEq] at h
                obtain ⟨rfl, rfl, rfl, rfl⟩ := h
                obtain ⟨rfl, hvm⟩ := tryMakeDate_eq_some hmd
                exact ⟨by simpa using hvm, by omega⟩
              | none => exact absurd ⟨hdd, hmd⟩ hgd

/-- Every successful resolution yields a valid calendar date and a 2-digit
year equal to the full year modulo 100 (for inputs whose structured
timestamps are valid dates and a generic parser producing valid dates). -/
lemma split_some_props {gp : String → Option Date} {hoy : Date}
    {val : RawDateValue} {dias : Option Int} {Y : Int} {m d : Nat} {yy : Int}
    (hts : ∀ t, val = RawDateValue.timestamp t → validDate t.year t.month t.day)
    (hgp : ∀ s t, gp s = some t → validDate t.year t.month t.day)
    (h : split_ddmmaa gp hoy val dias = some (Y, m, d, yy)) :
    validDate Y m d ∧ yy = Y % 100 := by
  cases val with
  | null => exact Option.noConfusion h
  | timestamp t =>
    simp only [split_ddmmaa, Option.some.injEq, Prod.mk.injEq] at h
    obtain ⟨rfl, rfl, rfl, rfl⟩ := h
    exact ⟨hts t rfl, rfl⟩
  | text s0 => exact split_text_some hgp h

lemma natDigitsGo_small (fuel n : Nat) (h : n < 10) :
    natDigitsGo fuel n = [Char.ofNat (48 + n)] := by
  cases fuel with
  | zero => simp [natDigitsGo, Nat.mod_eq_of_lt h]
  | succ f => simp [natDigitsGo, h]

lemma natDigitsGo_len : ∀ (fuel n w : Nat), n ≤ fuel → n < 10 ^ w → 1 ≤ w →
    (natDigitsGo fuel n).length ≤ w := by
  intro fuel
  induction fuel with
  | zero =>
    intro n w hn hw h1
    have : n = 0 := by omega
    subst this
    rw [natDigitsGo_small 0 0 (by omega)]
    simpa using h1
  | succ f ih =>
    intro n w hn hw h1
    by_cases h : n < 10
    · rw [natDigitsGo_small _ _ h]
      simpa using h1
    · have hw2 : 2 ≤ w := by
        by_contra hlt
        have : w = 1 := by omega
        subst this
        simp at hw
        omega
      have hstep : natDigitsGo (f + 1) n =
          natDigitsGo f (n / 10) ++ [Char.ofNat (48 + n % 10)] := by
        simp [natDigitsGo, h]
      rw [hstep, List.length_append]
      have hpow : 10 * 10 ^ (w - 1) = 10 ^ w := by
        conv_rhs => rw [show w = (w - 1) + 1 by omega]
        rw [pow_succ]
        ring
      have h2 : n / 10 < 10 ^ (w - 1) := by omega
      have := ih (n / 10) (w - 1) (by omega) h2 (by omega)
      simp only [List.length_singleton]
      omega

lemma natDigits_len_two {n : Nat} (h : n ≤ 99) : (natDigits n).length ≤ 2 := by
  have h2 : n < 10 ^ 2 := by norm_num; omega
  exact natDigitsGo_len n n 2 le_rfl h2 (by omega)

lemma natDigits_len_four {n : Nat} (h : n ≤ 9999) : (natDigits n).length ≤ 4 := by
  have h4 : n < 10 ^ 4 := by norm_num; omega
  exact natDigitsGo_len n n 4 le_rfl h4 (by omega)

lemma padNat_length {w n : Nat} (h : (natDigits n).length ≤ w) :
    (padNat w n).length = w := by
  simp [padNat]
  omega

lemma padInt_nonneg {w : Nat} {n : Int} (h : 0 ≤ n) :
    padInt w n = padNat w n.toNat := by
  rw [padInt, if_neg (by omega)]

lemma daysInMonth_le (y : Int) (m : Nat) : daysInMonth y m ≤ 31 := by
  match m with
  | 2 =>
    simp only [daysInMonth]
    norm_num
    split <;> omega
  | 0 | 1 | 3 | 4 | 5 | 6 | 7 | 8 | 9 | 10 | 11 | 12 => simp [daysInMonth]
  | n + 13 =>
    unfold daysInMonth
    repeat rw [if_neg (by omega)]
    omega

/-- C10. At every position the two outputs of `a_iso_y_display` are
consistent: either both empty, or the ISO string is `"YYYY-MM-DD"` and the
display string `"DD-MM-YY"` for one and the same valid calendar date, the
display's 2-digit year being the ISO year modulo 100 (so the widths are 10
and 8 characters). Structured timestamps in the input and the dates
produced by the generic parser are assumed valid, as `pandas` guarantees. -/
theorem claim_iso_display_consistency (gp : String → Option Date) (hoy : Date)
    (series : List RawDateValue) (hints : Option (List (Option Int)))
    (hts : ∀ t, RawDateValue.timestamp t ∈ series → validDate t.year t.month t.day)
    (hgp : ∀ s t, gp s = some t → validDate t.year t.month t.day) :
    ∀ (i : Nat) (iso disp : String),
      (a_iso_y_display gp hoy series hints).1[i]? = some iso →
      (a_iso_y_display gp hoy series hints).2[i]? = some disp →
      (iso = "" ∧ disp = "") ∨
      (∃ (Y : Int) (m d : Nat), validDate Y m d ∧
        iso = String.mk (padNat 4 Y.toNat ++ '-' :: padNat 2 m ++ '-' :: padNat 2 d) ∧
        disp = String.mk
          (padNat 2 d ++ '-' :: padNat 2 m ++ '-' :: padNat 2 (Y % 100).toNat) ∧
        iso.length = 10 ∧ disp.length = 8) := by
  intro i iso disp hiso hdisp
  rcases Nat.lt_or_ge i series.length with hi | hi
  · have hv : series[i]? = some series[i] := List.getElem?_eq_getElem hi
    obtain ⟨g1, g2⟩ := a_iso_y_display_at gp hoy series hints hv
    rw [g1] at hiso
    rw [g2] at hdisp
    injection hiso with hiso
    injection hdisp with hdisp
    subst hiso hdisp
    cases hr : split_ddmmaa gp hoy series[i] (hintAt hints i) with
    | none =>
      left
      exact ⟨rfl, rfl⟩
    | some tup =>
      obtain ⟨Y, m, d, yy⟩ := tup
      obtain ⟨hvalid, hyy⟩ := split_some_props
        (fun t ht => hts t (by rw [← ht]; exact List.getElem_mem hi)) hgp hr
      obtain ⟨hY1, hY2, hm1, hm2, hd1, hd2⟩ := hvalid
      have hd31 := daysInMonth_le Y m
      have l1 : (padNat 4 Y.toNat).length = 4 :=
        padNat_length (natDigits_len_four (by omega))
      have l2 : (padNat 2 m).length = 2 :=
        padNat_length (natDigits_len_two (by omega))
      have l3 : (padNat 2 d).length = 2 :=
        padNat_length (natDigits_len_two (by omega))
      have l4 : (padNat 2 (Y % 100).toNat).length = 2 :=
        padNat_length (natDigits_len_two (by omega))
      right
      refine ⟨Y, m, d, ⟨hY1, hY2, hm1, hm2, hd1, hd2⟩, ?_, ?_, ?_, ?_⟩
      · show String.mk (padInt 4 Y ++ '-' :: padNat 2 m ++ '-' :: padNat 2 d) = _
        rw [padInt_nonneg (by omega)]
      · show String.mk (padNat 2 d ++ '-' :: padNat 2 m ++ '-' :: padInt 2 yy) = _
        rw [hyy, padInt_nonneg (Int.emod_nonneg Y (by norm_num))]
      · show (String.mk (padInt 4 Y ++ '-' :: padNat 2 m ++ '-' :: padNat 2 d)).length
          = 10
        rw [padInt_nonneg (by omega)]
        simp [String.length, l1, l2, l3]
      · show (String.mk (padNat 2 d ++ '-' :: padNat 2 m ++ '-' :: padInt 2 yy)).length
          = 8
        rw [hyy, padInt_nonneg (Int.emod_nonneg Y (by norm_num))]
        simp [String.length, l2, l3, l4]
  · have hnone : (a_iso_y_display gp hoy series hints).1[i]? = none :=
      List.getElem?_eq_none
        (by rw [(a_iso_y_display_length gp hoy series hints).1]; omega)
    rw [hnone] at hiso
    exact Option.noConfusion hiso

/-- Witness for C10 at the single-entry batch `["15-04-25"]`, resolving to
ISO `"2025-04-15"` and display `"15-04-25"`. -/
theorem claim_iso_display_consistency_witness :
    ("2025-04-15" = "" ∧ "15-04-25" = "") ∨
    (∃ (Y : Int) (m d : Nat), validDate Y m d ∧
      "2025-04-15" =
        String.mk (padNat 4 Y.toNat ++ '-' :: padNat 2 m ++ '-' :: padNat 2 d) ∧
      "15-04-25" = String.mk
        (padNat 2 d ++ '-' :: padNat 2 m ++ '-' :: padNat 2 (Y % 100).toNat) ∧
      ("2025-04-15" : String).length = 10 ∧ ("15-04-25" : String).length = 8) :=
  claim_iso_display_consistency (fun _ => none) ⟨2024, 6, 1⟩ [.text "15-04-25"] none
    (by intro t ht; simp at ht) (fun s t h => Option.noConfusion h)
    0 "2025-04-15" "15-04-25" (by decide) (by decide)

end Dates

namespace Aliasing

lemma lowerLookup_mem {cols : List String} {key : List Char} {src : String}
    (h : lowerLookup cols key = some src) : src ∈ cols ∧ lowerStr src = key := by
  unfold lowerLookup at h
  have hmem := List.mem_of_mem_getLast? h
  have hf := List.mem_filter.mp hmem
  exact ⟨hf.1, by simpa using hf.2⟩

lemma lowerLookup_none_forall {cols : List String} {key : List Char}
    (h : lowerLookup cols key = none) : ∀ c ∈ cols, lowerStr c ≠ key := by
  intro c hc heq
  have hcf : c ∈ cols.filter (fun c => lowerStr c == key) :=
    List.mem_filter.mpr ⟨hc, by simp [heq]⟩
  have hsome : (cols.filter (fun c => lowerStr c == key)).getLast?.isSome :=
    List.getLast?_isSome.mpr (List.ne_nil_of_mem hcf)
  rw [lowerLookup] at h
  rw [h] at hsome
  simp at hsome

lemma firstAliasSrc_some {cols : List String} :
    ∀ {names : List String} {src : String},
      firstAliasSrc cols names = some src →
      ∃ (k : Nat) (n : String), names[k]? = some n ∧ lowerStr src = lowerStr n ∧
        src ∈ cols ∧
        ∀ (j : Nat) (m : String), j < k → names[j]? = some m →
          ∀ c ∈ cols, lowerStr c ≠ lowerStr m := by
  intro names
  induction names with
  | nil => intro src h; simp [firstAliasSrc] at h
  | cons n rest ih =>
    intro src h
    unfold firstAliasSrc at h
    cases hl : lowerLookup cols (lowerStr n) with
    | some s =>
      rw [hl] at h
      injection h with h
      subst h
      obtain ⟨hmem, hkey⟩ := lowerLookup_mem hl
      exact ⟨0, n, by simp, hkey, hmem, fun j m hj _ => absurd hj (by omega)⟩
    | none =>
      rw [hl] at h
      obtain ⟨k, n', hk, hkey, hmem, hearlier⟩ := ih h
      refine ⟨k + 1, n', by simpa using hk, hkey, hmem, ?_⟩
      intro j m hj hjm
      cases j with
      | zero =>
        have hm : n = m := by simpa using hjm
        subst hm
        exact lowerLookup_none_forall hl
      | succ j => exact hearlier j m (by omega) (by simpa using hjm)

lemma mem_colmapPairs {aliases : List (String × List String)} {cols : List String}
    {src tgt : String} (h : (src, tgt) ∈ colmapPairs aliases cols) :
    ∃ names, (tgt, names) ∈ aliases ∧ firstAliasSrc cols names = some src := by
  obtain ⟨p, hp, hf⟩ := List.mem_filterMap.mp h
  obtain ⟨s, hs, he⟩ := Option.map_eq_some'.mp hf
  injection he with h1 h2
  subst h1 h2
  exact ⟨p.2, by simpa using hp, hs⟩

/-- C9 counterexample: the specification says alias matching is
case-insensitive AND whitespace-trimmed; for the actual column name
`"ESTADO "` (trailing blank) the code's rename plan binds nothing, while
trimmed matching would bind it to the canonical field `ESTADO`. -/
theorem claim_aliasing_counterexample :
    colmapPairs excelAliases ["ESTADO "] = [] ∧
    colmapPairsTrimmed excelAliases ["ESTADO "] = [("ESTADO ", "ESTADO")] := by
  decide

/-- C9 (amended): column aliasing matches source column names
case-insensitively (without whitespace trimming) against each canonical
field's alias list, binds the first alias having a match (earlier aliases
of that field match no column), and silently omits a canonical field none
of whose aliases matches any column; the rename plan only mentions actual
columns. (The plan is produced without modifying the input — the embedding
is pure, mirroring `df.rename(columns=colmap).copy()`.) -/
theorem claim_aliasing_amended (aliases : List (String × List String))
    (cols : List String) :
    (∀ src tgt, (src, tgt) ∈ colmapPairs aliases cols →
      src ∈ cols ∧
      ∃ (names : List String) (k : Nat) (n : String),
        (tgt, names) ∈ aliases ∧ names[k]? = some n ∧
        lowerStr src = lowerStr n ∧
        ∀ (j : Nat) (m : String), j < k → names[j]? = some m →
          ∀ c ∈ cols, lowerStr c ≠ lowerStr m) ∧
    (∀ tgt,
      (∀ names, (tgt, names) ∈ aliases →
        ∀ n ∈ names, ∀ c ∈ cols, lowerStr c ≠ lowerStr n) →
      ∀ src, (src, tgt) ∉ colmapPairs aliases cols) := by
  constructor
  · intro src tgt h
    obtain ⟨names, hmem, hfa⟩ := mem_colmapPairs h
    obtain ⟨k, n, hk, hkey, hsrc, hearlier⟩ := firstAliasSrc_some hfa
    exact ⟨hsrc, names, k, n, hmem, hk, hkey, hearlier⟩
  · intro tgt hno src h
    obtain ⟨names, hmem, hfa⟩ := mem_colmapPairs h
    obtain ⟨k, n, hk, hkey, hsrc, -⟩ := firstAliasSrc_some hfa
    have hn : n ∈ names := List.getElem?_mem hk
    exact hno names hmem n hn src hsrc hkey

/-- Witness for the amended C9: `"Order Status"` binds case-insensitively
to the canonical field `ESTADO` and is an actual column. -/
theorem claim_aliasing_amended_witness :
    ("Order Status", "ESTADO") ∈
      colmapPairs excelAliases ["Order Status", "junk"] ∧
    "Order Status" ∈ ["Order Status", "junk"] := by
  have h := (claim_aliasing_amended excelAliases ["Order Status", "junk"]).1
    "Order Status" "ESTADO" (by decide)
  exact ⟨by decide, h.1⟩

end Aliasing

/-! ## Concrete sanity checks, including the specification's worked
examples -/

section Examples
open Dates
example : daysFromCivil 1970 1 1 = 0 := by decide
example : daysFromCivil 2024 6 1 = 19875 := by decide
example : daysFromCivil 2023 2 1 = 19389 := by decide
example : (19875 : Int) - 19389 = 486 := by decide
example : daysFromCivil 2023 1 2 = 19359 := by decide
example : matchDdmmaa "03-04-25".data = some (3, 4, 25) := by decide
example : matchDdmmaa "3/4/25".data = some (3, 4, 25) := by decide
example : matchDdmmaa "32-13-99".data = some (32, 13, 99) := by decide
example : matchDdmmaa "not-a-date".data = none := by decide
example : matchDdmmaa "123-4-25".data = none := by decide
example : matchDdmmaa "03-04-2025".data = none := by decide
example :
    split_ddmmaa (fun _ => none) ⟨2024, 6, 1⟩ (.text "01-02-23") (some 400) =
      some (2023, 2, 1, 23) := by decide
example :
    split_ddmmaa (fun _ => none) ⟨2024, 6, 1⟩ (.text "01-02-23") (some 516) =
      some (2023, 1, 2, 23) := by decide
example :
    split_ddmmaa (fun _ => none) ⟨2024, 6, 1⟩ (.text "32-13-99") none = none := by
  decide
example : render (some (2023, 2, 1, 23)) = ("2023-02-01", "01-02-23") := by decide
example :
    Aliasing.colmapPairs Aliasing.excelAliases ["Order Status", "stuff"] =
      [("Order Status", "ESTADO")] := by decide
example : Aliasing.colmapPairs Aliasing.excelAliases ["ESTADO "] = [] := by decide
example :
    Aliasing.colmapPairsTrimmed Aliasing.excelAliases ["ESTADO "] =
      [("ESTADO ", "ESTADO")] := by decide
example : Dates.busdayCount ⟨2024, 6, 3⟩ ⟨2024, 6, 10⟩ = 5 := by decide
example : Dates.busdayCount ⟨2024, 6, 3⟩ ⟨2024, 6, 3⟩ = 0 := by decide
example : Dates.busdayCount ⟨2024, 6, 8⟩ ⟨2024, 6, 15⟩ = 5 := by decide
end Examples
